import Mathlib

/-!
Shallow embedding of the sg-draw flow-field drawing core
(src/drawer/flow_field.js, src/drawer/streamline.js, src/drawer/colors.js,
src/drawer/sketch.js).  JavaScript numbers are modelled as rationals;
`Math.sqrt` and `Math.pow` are modelled as explicit function parameters
(`sq`, `pw`) wherever the source calls them, so every definition stays
computable and theorems can hypothesize exactly the properties of the
real square root that a given claim needs.
-/

namespace SgDraw

/-- p5.js `constrain(n, low, high) = max(min(n, high), low)`. -/
def constrain (n low high : ℚ) : ℚ := max (min n high) low

/-- p5.js `lerp(start, stop, amt) = start + (stop - start) * amt`. -/
def lerp (start stop amt : ℚ) : ℚ := start + (stop - start) * amt

/-- p5.js `map(value, a, b, c, d)`: linear remap of `value` from `[a,b]` to `[c,d]`. -/
def pmap (value a b c d : ℚ) : ℚ := c + (d - c) * ((value - a) / (b - a))

/-- The JSON input grid (`jsonData` in `FlowField`'s constructor):
`width`, `height` and three `height × width` arrays, modelled as total
functions (row index = y, column index = x). -/
structure GridData where
  width : ℕ
  height : ℕ
  depth : ℕ → ℕ → ℚ
  U : ℕ → ℕ → ℚ
  V : ℕ → ℕ → ℚ

/-- The `FlowField` object after construction: the raw grids plus the
derived `speed` grid and `maxSpeed` scalar. -/
structure FlowField where
  width : ℕ
  height : ℕ
  depth : ℕ → ℕ → ℚ
  U : ℕ → ℕ → ℚ
  V : ℕ → ℕ → ℚ
  speed : ℕ → ℕ → ℚ
  maxSpeed : ℚ

/-- `FlowField`'s constructor (flow_field.js lines 6-30): copies the
grids and computes `speed[y][x] = sqrt(U[y][x]^2 + V[y][x]^2)` and
`maxSpeed` by scanning all cells with a strict-greater test starting
from 0.  `sq` stands for `Math.sqrt`.  Note: the constructor performs
no validation of `width`/`height`. -/
def mkFlowField (sq : ℚ → ℚ) (jsonData : GridData) : FlowField :=
  let speed : ℕ → ℕ → ℚ := fun y x =>
    sq (jsonData.U y x * jsonData.U y x + jsonData.V y x * jsonData.V y x)
  let maxSpeed : ℚ :=
    (List.range jsonData.height).foldl (fun m y =>
      (List.range jsonData.width).foldl (fun m x =>
        if speed y x > m then speed y x else m) m) 0
  { width := jsonData.width
    height := jsonData.height
    depth := jsonData.depth
    U := jsonData.U
    V := jsonData.V
    speed := speed
    maxSpeed := maxSpeed }

/-- First step of every sampler: `constrain(x, 0, size - 1)`. -/
def clampCoord (x : ℚ) (size : ℕ) : ℚ := constrain x 0 ((size : ℚ) - 1)

/-- Cell origin used by every sampler:
`constrain(Math.floor(x_clamped), 0, size - 2)` (an integer). -/
def cellIndex (x : ℚ) (size : ℕ) : ℤ := max (min ⌊clampCoord x size⌋ ((size : ℤ) - 2)) 0

/-- Fractional offset `fx = x_clamped - ix` used by every sampler. -/
def frac (x : ℚ) (size : ℕ) : ℚ := clampCoord x size - ((cellIndex x size : ℤ) : ℚ)

/-- The bilinear sampling computation that `getGradient`, `getDepth` and
`getSpeed` (flow_field.js lines 38-67, 75-94, 102-121) each inline
verbatim: clamp the query point, clamp the cell origin, then blend the
four corners with the bilinear weights. -/
def bilinear (grid : ℕ → ℕ → ℚ) (width height : ℕ) (x y : ℚ) : ℚ :=
  (1 - frac x width) * (1 - frac y height) *
      grid (cellIndex y height).toNat (cellIndex x width).toNat
    + frac x width * (1 - frac y height) *
      grid (cellIndex y height).toNat ((cellIndex x width).toNat + 1)
    + (1 - frac x width) * frac y height *
      grid ((cellIndex y height).toNat + 1) (cellIndex x width).toNat
    + frac x width * frac y height *
      grid ((cellIndex y height).toNat + 1) ((cellIndex x width).toNat + 1)

/-- `FlowField.getGradient(x, y)` (flow_field.js lines 38-67). -/
def FlowField.getGradient (f : FlowField) (x y : ℚ) : ℚ × ℚ :=
  (bilinear f.U f.width f.height x y, bilinear f.V f.width f.height x y)

/-- `FlowField.getDepth(x, y)` (flow_field.js lines 75-94). -/
def FlowField.getDepth (f : FlowField) (x y : ℚ) : ℚ :=
  bilinear f.depth f.width f.height x y

/-- `FlowField.getSpeed(x, y)` (flow_field.js lines 102-121). -/
def FlowField.getSpeed (f : FlowField) (x y : ℚ) : ℚ :=
  bilinear f.speed f.width f.height x y

/-! ## Streamline integration (src/drawer/streamline.js) -/

/-- The body of `integrateStreamline`'s `for` loop (streamline.js lines
21-53), with the remaining iteration count as fuel.  Each iteration:
bounds check with strict upper bounds `width-1`/`height-1`, visited-cell
check on the key `(floor(x), floor(y))` (the JS string key
`"fx,fy"` is modelled as the integer pair, an injective encoding),
gradient sampling, minimum-speed check, then normalization by
`speed + 1e-8` and one step of size `stepSize`; the advanced position is
appended and becomes current.  Returns the list of appended points. -/
def integrateLoop (sq : ℚ → ℚ) (flowField : FlowField) (stepSize minSpeed : ℚ) :
    ℕ → ℚ → ℚ → List (ℤ × ℤ) → List (ℚ × ℚ)
  | 0, _, _, _ => []
  | n + 1, x, y, visited =>
    if x < 0 ∨ (flowField.width : ℚ) - 1 ≤ x ∨ y < 0 ∨ (flowField.height : ℚ) - 1 ≤ y then
      []
    else
      let key : ℤ × ℤ := (⌊x⌋, ⌊y⌋)
      if key ∈ visited then []
      else
        let grad := flowField.getGradient x y
        let speed := sq (grad.1 * grad.1 + grad.2 * grad.2)
        if speed < minSpeed then []
        else
          let u := grad.1 / (speed + 1 / 100000000)
          let v := grad.2 / (speed + 1 / 100000000)
          let x2 := x + u * stepSize
          let y2 := y + v * stepSize
          (x2, y2) :: integrateLoop sq flowField stepSize minSpeed n x2 y2 (key :: visited)

/-- `integrateStreamline(x0, y0, flowField, stepSize, maxLength, minSpeed)`
(streamline.js lines 15-56): the traced points start with the seed; the
trace is returned only when it has more than 10 points, otherwise the
result is empty.  `sq` stands for `Math.sqrt`. -/
def integrateStreamline (sq : ℚ → ℚ) (x0 y0 : ℚ) (flowField : FlowField)
    (stepSize : ℚ) (maxLength : ℕ) (minSpeed : ℚ) : List (ℚ × ℚ) :=
  let points := (x0, y0) :: integrateLoop sq flowField stepSize minSpeed maxLength x0 y0 []
  if 10 < points.length then points else []

/-- `catmullRom(p0, p1, p2, p3, t)` (streamline.js lines 96-105). -/
def catmullRom (p0 p1 p2 p3 t : ℚ) : ℚ :=
  let t2 := t * t
  let t3 := t2 * t
  (1/2) * ((2 * p1) + (-p0 + p2) * t +
    (2 * p0 - 5 * p1 + 4 * p2 - p3) * t2 +
    (-p0 + 3 * p1 - 3 * p2 + p3) * t3)

/-- The values taken by `t` in the loop `for (t = 0; t < 1; t += step)`
in exact arithmetic: `0, step, 2*step, ...` while `k*step < 1`, i.e.
`⌈1/step⌉` samples for `step > 0`. -/
def tSamples (step : ℚ) : List ℚ :=
  (List.range (⌈(1 : ℚ) / step⌉.toNat)).map (fun k => (k : ℚ) * step)

/-- `smoothStreamline(points)` (streamline.js lines 63-91): inputs with
fewer than 2 points are returned unchanged; otherwise each consecutive
pair is resampled by Catmull-Rom with a step chosen from the segment
length (the JS test `sqrt(dx^2+dy^2) < 5` is expressed equivalently on
squares as `dx^2+dy^2 < 25`, likewise `< 20` as `< 400`). -/
def smoothStreamline (points : List (ℚ × ℚ)) : List (ℚ × ℚ) :=
  if points.length < 2 then points
  else
    (List.range (points.length - 1)).flatMap (fun i =>
      let p0 := if 0 < i then points.getD (i - 1) (0, 0) else points.getD i (0, 0)
      let p1 := points.getD i (0, 0)
      let p2 := points.getD (i + 1) (0, 0)
      let p3 := if i < points.length - 2 then points.getD (i + 2) (0, 0)
                else points.getD (i + 1) (0, 0)
      let dx := p2.1 - p1.1
      let dy := p2.2 - p1.2
      let step : ℚ :=
        if dx * dx + dy * dy < 25 then 2/10
        else if dx * dx + dy * dy < 400 then 15/100 else 1/10
      (tSamples step).map (fun t =>
        (catmullRom p0.1 p1.1 p2.1 p3.1 t, catmullRom p0.2 p1.2 p2.2 p3.2 t)))

/-! ## Color mapping (src/drawer/colors.js, the `emphasizeDeep` version,
lines 63-145 of the packed file) -/

/-- One two-stop entry of the `ColorSchemes` table. -/
structure SchemeColors where
  shallow : ℚ × ℚ × ℚ
  deep : ℚ × ℚ × ℚ
  useAlpha : Bool
  deriving DecidableEq

/-- The `ColorSchemes` table (colors.js lines 67-82). -/
def ColorSchemes : List (String × SchemeColors) :=
  [("ocean", ⟨(174, 225, 165), (10, 74, 122), false⟩),
   ("sunset", ⟨(255, 200, 150), (100, 50, 150), false⟩),
   ("white", ⟨(255, 255, 255), (255, 255, 255), true⟩)]

/-- `transformDepth(depth, power)` (colors.js lines 91-97); `pw` stands
for `Math.pow`. -/
def transformDepth (pw : ℚ → ℚ → ℚ) (depth power : ℚ) : ℚ :=
  1 - pw (1 - depth) power

/-- `depthToColor(depth, scheme, emphasizeDeep)` (colors.js lines
106-129), restricted to the own-property paths of the JS lookup
`ColorSchemes[scheme]`: a table key yields its record, and a name bound
neither on the table nor on `Object.prototype` yields `undefined`,
hence the fixed gray `(128, 128, 128)`.  The result is an RGBA
quadruple; p5.js `color(r, g, b)` defaults alpha to 255.  The full
JS behavior, including the prototype-chain names on which the code
instead throws, is `depthToColorJS` below; the two agree on every
scheme name outside `objectPrototypeProps`
(`depthToColorJS_agrees_off_prototype`). -/
def depthToColor (pw : ℚ → ℚ → ℚ) (depth : ℚ) (scheme : String) (emphasizeDeep : Bool) :
    ℚ × ℚ × ℚ × ℚ :=
  let transformedDepth := if emphasizeDeep then transformDepth pw depth (3/2) else depth
  match List.lookup scheme ColorSchemes with
  | none => (128, 128, 128, 255)
  | some colors =>
    if scheme = "white" ∧ colors.useAlpha then
      (255, 255, 255, pmap transformedDepth 0 1 0 255)
    else
      (lerp colors.deep.1 colors.shallow.1 transformedDepth,
       lerp colors.deep.2.1 colors.shallow.2.1 transformedDepth,
       lerp colors.deep.2.2 colors.shallow.2.2 transformedDepth,
       255)

/-- The property names every plain JS object literal inherits from
`Object.prototype` in a standard runtime.  Reading any of them on the
`ColorSchemes` object yields a truthy non-scheme value (a function, or
the prototype object itself for `"__proto__"`). -/
def objectPrototypeProps : List String :=
  ["constructor", "hasOwnProperty", "isPrototypeOf", "propertyIsEnumerable",
   "toLocaleString", "toString", "valueOf", "__proto__",
   "__defineGetter__", "__defineSetter__", "__lookupGetter__", "__lookupSetter__"]

/-- `depthToColor` with full JavaScript property-lookup semantics for
`ColorSchemes[scheme]`: an own key yields its scheme record; a non-key
name inherited from `Object.prototype` yields a truthy value, so
`if (!colors)` does NOT take the gray fallback, `colors.useAlpha` is
`undefined` (falsy), and execution reaches
`lerp(colors.deep[0], ...)` where `colors.deep` is `undefined` — a
thrown TypeError, modelled as `none`; every other name yields
`undefined`, hence the gray fallback. -/
def depthToColorJS (pw : ℚ → ℚ → ℚ) (depth : ℚ) (scheme : String) (emphasizeDeep : Bool) :
    Option (ℚ × ℚ × ℚ × ℚ) :=
  let transformedDepth := if emphasizeDeep then transformDepth pw depth (3/2) else depth
  match List.lookup scheme ColorSchemes with
  | some colors =>
    if scheme = "white" ∧ colors.useAlpha then
      some (255, 255, 255, pmap transformedDepth 0 1 0 255)
    else
      some (lerp colors.deep.1 colors.shallow.1 transformedDepth,
            lerp colors.deep.2.1 colors.shallow.2.1 transformedDepth,
            lerp colors.deep.2.2 colors.shallow.2.2 transformedDepth,
            255)
  | none =>
    if scheme ∈ objectPrototypeProps then
      none
    else
      some (128, 128, 128, 255)

/-! ## Seed generation (src/drawer/sketch.js `generateStreamlines`,
lines 130-164; identical layout code in src/unnamed/part_000 and
part_001) -/

/-- `gridSize = Math.floor(Math.sqrt(density * 100))`. -/
def gridSizeOf (sq : ℚ → ℚ) (density : ℚ) : ℕ := ⌊sq (density * 100)⌋.toNat

/-- `xStep = flowField.width / gridSize`. -/
def xStepOf (flowField : FlowField) (gridSize : ℕ) : ℚ :=
  (flowField.width : ℚ) / (gridSize : ℚ)

/-- `yStep = flowField.height / gridSize`. -/
def yStepOf (flowField : FlowField) (gridSize : ℕ) : ℚ :=
  (flowField.height : ℚ) / (gridSize : ℚ)

/-- The nominal center of the i-th stratified jitter cell on the x axis:
the code jitters uniformly in `[-xStep/2, +xStep/2]` around `i * xStep`,
so the i-th cell is the interval of width `xStep` centered there. -/
def cellCenterX (flowField : FlowField) (gridSize i : ℕ) : ℚ :=
  (i : ℚ) * xStepOf flowField gridSize

/-- The nominal center of the j-th stratified jitter cell on the y axis. -/
def cellCenterY (flowField : FlowField) (gridSize j : ℕ) : ℚ :=
  (j : ℚ) * yStepOf flowField gridSize

/-- The seed produced for cell `(i, j)` with jitter `(jx, jy)`:
`x = i*xStep + jitter` then `constrain(x, 0, width-1)`, same on y. -/
def seedAt (flowField : FlowField) (gridSize i j : ℕ) (jx jy : ℚ) : ℚ × ℚ :=
  (constrain ((i : ℚ) * xStepOf flowField gridSize + jx) 0 ((flowField.width : ℚ) - 1),
   constrain ((j : ℚ) * yStepOf flowField gridSize + jy) 0 ((flowField.height : ℚ) - 1))

/-- The seed list produced by the nested loops of `generateStreamlines`:
one seed per cell `(i, j)`, `i, j < gridSize`, in loop order.  The call
`random(-step/2, step/2)` is modelled by the jitter function; one run of
the generator corresponds to one choice of `jitter`. -/
def generateSeeds (sq : ℚ → ℚ) (flowField : FlowField) (density : ℚ)
    (jitter : ℕ → ℕ → ℚ × ℚ) : List (ℚ × ℚ) :=
  let gridSize := gridSizeOf sq density
  (List.range gridSize).flatMap (fun i =>
    (List.range gridSize).map (fun j =>
      seedAt flowField gridSize i j (jitter i j).1 (jitter i j).2))

/-! ## Concrete inputs used by individual claims -/

/-- A degenerate 1×1 grid (the smallest well-formed JSON input). -/
def grid1x1 : GridData := ⟨1, 1, fun _ _ => 0, fun _ _ => 0, fun _ _ => 0⟩

/-- The 4×4 example grid of the spec's example scenario: constant
`U = 1`, `V = 0`, `depth` linear in x from 0 at `x = 0` to 1 at `x = 3`. -/
def grid4 : GridData := ⟨4, 4, fun _ x => (x : ℚ) / 3, fun _ _ => 1, fun _ _ => 0⟩

/-- The Field built from `grid4`.  `Rat.sqrt` models `Math.sqrt`; it is
exact on every value this scenario evaluates (only `sqrt 1`). -/
def field4 : FlowField := mkFlowField Rat.sqrt grid4

/-- The polyline traced internally by
`integrateStreamline(0.5, 0.5, field4, 1, 10, 0.001)` (the `points`
array before the length-10 filter). -/
def tracePoints6 : List (ℚ × ℚ) :=
  (1/2, 1/2) :: integrateLoop Rat.sqrt field4 1 (1/1000) 10 (1/2) (1/2) []

/-- A 20×20 grid with constant gradient `U = 1`, `V = 0`. -/
def gridW : GridData := ⟨20, 20, fun _ _ => 0, fun _ _ => 1, fun _ _ => 0⟩

/-- A sqrt model used to instantiate theorems whose hypotheses only need
`sqrt(a² + b²) ≥ |a|`: `sqAff q = 1 + q` satisfies that bound. -/
def sqAff : ℚ → ℚ := fun q => 1 + q

/-- The Field built from `gridW` with the `sqAff` sqrt model. -/
def fieldW : FlowField := mkFlowField sqAff gridW

/-! ## Shared helper lemmas -/

theorem constrain_mem {x lo hi : ℚ} (h : lo ≤ hi) :
    lo ≤ constrain x lo hi ∧ constrain x lo hi ≤ hi := by
  unfold constrain
  exact ⟨le_max_right _ _, max_le (min_le_right x hi) h⟩

theorem constrain_constrain {x lo hi : ℚ} (h : lo ≤ hi) :
    constrain (constrain x lo hi) lo hi = constrain x lo hi := by
  unfold constrain
  have h1 : max (min x hi) lo ≤ hi := max_le (min_le_right x hi) h
  rw [min_eq_left h1, max_eq_left (le_max_right (min x hi) lo)]

theorem lerp_mono_of_le {a b t1 t2 : ℚ} (hab : a ≤ b) (ht : t1 ≤ t2) :
    lerp a b t1 ≤ lerp a b t2 := by
  unfold lerp; nlinarith

theorem lerp_anti_of_ge {a b t1 t2 : ℚ} (hab : b ≤ a) (ht : t1 ≤ t2) :
    lerp a b t2 ≤ lerp a b t1 := by
  unfold lerp; nlinarith

/-! ## Claim C9 -/

/-- Claim C9: `smoothStreamline` returns any input with fewer than 2
points unchanged. -/
theorem smooth_short_passthrough (points : List (ℚ × ℚ)) (h : points.length < 2) :
    smoothStreamline points = points := by
  unfold smoothStreamline
  rw [if_pos h]

/-- Witness for C9: the empty polyline and a one-point polyline both
pass through `smoothStreamline` unchanged. -/
theorem smooth_short_passthrough_witness :
    smoothStreamline [] = [] ∧ smoothStreamline [((1 : ℚ), (2 : ℚ))] = [(1, 2)] :=
  ⟨smooth_short_passthrough [] (by simp),
   smooth_short_passthrough [(1, 2)] (by simp)⟩

/-! ## Claim C3 -/

/-- Claim C3: `integrateStreamline` returns either the empty list, or
the full traced polyline, which starts at the seed and has more than 10
points; a non-empty result of 10 or fewer points is impossible. -/
theorem integrate_result_length_contract (sq : ℚ → ℚ) (x0 y0 : ℚ) (f : FlowField)
    (stepSize : ℚ) (maxLength : ℕ) (minSpeed : ℚ) :
    integrateStreamline sq x0 y0 f stepSize maxLength minSpeed = [] ∨
      ((integrateStreamline sq x0 y0 f stepSize maxLength minSpeed).head? = some (x0, y0) ∧
        10 < (integrateStreamline sq x0 y0 f stepSize maxLength minSpeed).length) := by
  by_cases h : 10 < ((x0, y0) :: integrateLoop sq f stepSize minSpeed maxLength x0 y0 []).length
  · right
    unfold integrateStreamline
    rw [if_pos h]
    exact ⟨rfl, h⟩
  · left
    unfold integrateStreamline
    rw [if_neg h]

/-! ## Claim C8 -/

/-- On every scheme name outside `objectPrototypeProps` — table keys
and genuinely unbound names alike — the full-lookup model agrees with
`depthToColor` and never errors. -/
theorem depthToColorJS_agrees_off_prototype (pw : ℚ → ℚ → ℚ) (depth : ℚ) (scheme : String)
    (emphasizeDeep : Bool) (h : scheme ∉ objectPrototypeProps) :
    depthToColorJS pw depth scheme emphasizeDeep =
      some (depthToColor pw depth scheme emphasizeDeep) := by
  unfold depthToColorJS depthToColor
  cases List.lookup scheme ColorSchemes with
  | none => simp only [if_neg h]
  | some colors =>
    dsimp only
    split <;> rfl

/-- Claim C8 (code behavior at the failing input): `"toString"` is not
a key of the scheme table, yet `depthToColor(0.5, "toString")` does not
return the gray fallback — the truthy inherited `Object.prototype`
member passes the `if (!colors)` test and the code throws a TypeError
at `colors.deep[0]` (modelled as `none`); a name with no binding at
all, such as `"nonexistent"`, does fall back to the identical fixed
gray at any depth. -/
theorem depthToColor_prototype_chain_error :
    depthToColorJS (fun a _ => a) (1/2) "toString" true = none ∧
      depthToColorJS (fun a _ => a) (1/2) "nonexistent" true = some (128, 128, 128, 255) ∧
      depthToColorJS (fun a _ => a) (7/3) "nonexistent" false = some (128, 128, 128, 255) := by
  with_unfolding_all decide

/-! ## Claim C1 -/

/-- Claim C1 (refutation / code behavior): the `FlowField` constructor
performs no dimension validation, so building a Field from a degenerate
1×1 grid succeeds silently — it produces a Field with `width = height = 1`
and a fully computed derived `speed` grid and `maxSpeed`, and no
`InvalidGridDimensions` failure exists anywhere in the construction
path. -/
theorem construct_degenerate_grid_succeeds :
    (mkFlowField Rat.sqrt grid1x1).width = 1 ∧
      (mkFlowField Rat.sqrt grid1x1).height = 1 ∧
      (mkFlowField Rat.sqrt grid1x1).speed 0 0 = 0 ∧
      (mkFlowField Rat.sqrt grid1x1).maxSpeed = 0 := by
  with_unfolding_all decide

/-! ## Claim C7 -/

/-- Evaluation of `depthToColor` with `emphasizeDeep = false` on a
two-stop scheme (any table entry not routed to the alpha branch). -/
theorem depthToColor_two_stop_eval (pw : ℚ → ℚ → ℚ) (d : ℚ) (scheme : String)
    (cs : SchemeColors) (hlk : List.lookup scheme ColorSchemes = some cs)
    (halpha : ¬(scheme = "white" ∧ cs.useAlpha)) :
    depthToColor pw d scheme false =
      (lerp cs.deep.1 cs.shallow.1 d, lerp cs.deep.2.1 cs.shallow.2.1 d,
       lerp cs.deep.2.2 cs.shallow.2.2 d, 255) := by
  unfold depthToColor
  rw [hlk]
  simp only [Bool.false_eq_true, if_false, if_neg halpha]

/-- Claim C7: with `emphasizeDeep = false`, on any two-stop scheme of
the table (such as `"ocean"`), each RGB channel of `depthToColor` moves
monotonically from the deep stop toward the shallow stop as depth
increases: non-decreasing when the shallow stop value is at least the
deep stop value for that channel, non-increasing otherwise. -/
theorem depthToColor_channel_monotone (pw : ℚ → ℚ → ℚ) (scheme : String)
    (cs : SchemeColors) (hlk : List.lookup scheme ColorSchemes = some cs)
    (halpha : ¬(scheme = "white" ∧ cs.useAlpha))
    (d1 d2 : ℚ) (hd : d1 ≤ d2) :
    ((cs.deep.1 ≤ cs.shallow.1 →
        (depthToColor pw d1 scheme false).1 ≤ (depthToColor pw d2 scheme false).1) ∧
      (cs.shallow.1 ≤ cs.deep.1 →
        (depthToColor pw d2 scheme false).1 ≤ (depthToColor pw d1 scheme false).1)) ∧
    ((cs.deep.2.1 ≤ cs.shallow.2.1 →
        (depthToColor pw d1 scheme false).2.1 ≤ (depthToColor pw d2 scheme false).2.1) ∧
      (cs.shallow.2.1 ≤ cs.deep.2.1 →
        (depthToColor pw d2 scheme false).2.1 ≤ (depthToColor pw d1 scheme false).2.1)) ∧
    ((cs.deep.2.2 ≤ cs.shallow.2.2 →
        (depthToColor pw d1 scheme false).2.2.1 ≤ (depthToColor pw d2 scheme false).2.2.1) ∧
      (cs.shallow.2.2 ≤ cs.deep.2.2 →
        (depthToColor pw d2 scheme false).2.2.1 ≤ (depthToColor pw d1 scheme false).2.2.1)) := by
  rw [depthToColor_two_stop_eval pw d1 scheme cs hlk halpha,
    depthToColor_two_stop_eval pw d2 scheme cs hlk halpha]
  exact ⟨⟨fun hab => lerp_mono_of_le hab hd, fun hab => lerp_anti_of_ge hab hd⟩,
    ⟨fun hab => lerp_mono_of_le hab hd, fun hab => lerp_anti_of_ge hab hd⟩,
    ⟨fun hab => lerp_mono_of_le hab hd, fun hab => lerp_anti_of_ge hab hd⟩⟩

/-- Witness for C7: the `"ocean"` scheme at depths 0 and 1. -/
theorem depthToColor_channel_monotone_witness :
    ((SchemeColors.mk (174, 225, 165) (10, 74, 122) false).deep.1 ≤
        (SchemeColors.mk (174, 225, 165) (10, 74, 122) false).shallow.1 →
      (depthToColor (fun a _ => a) 0 "ocean" false).1 ≤
        (depthToColor (fun a _ => a) 1 "ocean" false).1) ∧
    ((SchemeColors.mk (174, 225, 165) (10, 74, 122) false).shallow.1 ≤
        (SchemeColors.mk (174, 225, 165) (10, 74, 122) false).deep.1 →
      (depthToColor (fun a _ => a) 1 "ocean" false).1 ≤
        (depthToColor (fun a _ => a) 0 "ocean" false).1) := by
  exact (depthToColor_channel_monotone (fun a _ => a) "ocean"
    (SchemeColors.mk (174, 225, 165) (10, 74, 122) false)
    (by with_unfolding_all decide) (by with_unfolding_all decide)
    0 1 (by norm_num)).1

/-! ## Claim C2 -/

theorem clampCoord_natCast {n size : ℕ} (hn : n < size) :
    clampCoord (n : ℚ) size = (n : ℚ) := by
  unfold clampCoord constrain
  have h1 : (n : ℚ) ≤ (size : ℚ) - 1 := by
    have : (n : ℚ) + 1 ≤ (size : ℚ) := by exact_mod_cast hn
    linarith
  rw [min_eq_left h1, max_eq_left (by positivity)]

theorem cellIndex_natCast_lo {n size : ℕ} (hn : n + 2 ≤ size) :
    cellIndex (n : ℚ) size = (n : ℤ) := by
  unfold cellIndex
  rw [clampCoord_natCast (by omega), Int.floor_natCast]
  have h1 : (n : ℤ) ≤ (size : ℤ) - 2 := by omega
  rw [min_eq_left h1, max_eq_left (by positivity)]

theorem frac_natCast_lo {n size : ℕ} (hn : n + 2 ≤ size) :
    frac (n : ℚ) size = 0 := by
  unfold frac
  rw [clampCoord_natCast (by omega), cellIndex_natCast_lo hn]
  simp

theorem cellIndex_natCast_hi {n size : ℕ} (h2 : 2 ≤ size) (hn : n + 1 = size) :
    cellIndex (n : ℚ) size = (n : ℤ) - 1 := by
  unfold cellIndex
  rw [clampCoord_natCast (by omega), Int.floor_natCast]
  have h1 : (size : ℤ) - 2 ≤ (n : ℤ) := by omega
  rw [min_eq_right h1]
  have h3 : (size : ℤ) - 2 = (n : ℤ) - 1 := by omega
  rw [h3, max_eq_left (by omega)]

theorem frac_natCast_hi {n size : ℕ} (h2 : 2 ≤ size) (hn : n + 1 = size) :
    frac (n : ℚ) size = 1 := by
  unfold frac
  rw [clampCoord_natCast (by omega), cellIndex_natCast_hi h2 hn]
  push_cast
  ring

/-- Bilinear sampling at an integer in-range coordinate collapses to the
stored grid value, in both the interior case (`frac = 0`) and the last
row/column case (cell origin clamped, `frac = 1`). -/
theorem bilinear_natCast (grid : ℕ → ℕ → ℚ) {w h : ℕ} (hw : 2 ≤ w) (hh : 2 ≤ h)
    {ix iy : ℕ} (hx : ix < w) (hy : iy < h) :
    bilinear grid w h (ix : ℚ) (iy : ℚ) = grid iy ix := by
  unfold bilinear
  rcases Nat.lt_or_ge (ix + 1) w with hxa | hxa
  · rcases Nat.lt_or_ge (iy + 1) h with hya | hya
    · rw [frac_natCast_lo (by omega : ix + 2 ≤ w), frac_natCast_lo (by omega : iy + 2 ≤ h),
        cellIndex_natCast_lo (by omega : ix + 2 ≤ w), cellIndex_natCast_lo (by omega : iy + 2 ≤ h)]
      simp
    · have hye : iy + 1 = h := by omega
      rw [frac_natCast_lo (by omega : ix + 2 ≤ w), frac_natCast_hi hh hye,
        cellIndex_natCast_lo (by omega : ix + 2 ≤ w), cellIndex_natCast_hi hh hye]
      have h4 : ((iy : ℤ) - 1).toNat = iy - 1 := by omega
      have h5 : iy - 1 + 1 = iy := by omega
      rw [h4, h5]
      simp
  · have hxe : ix + 1 = w := by omega
    have h4 : ((ix : ℤ) - 1).toNat = ix - 1 := by omega
    have h5 : ix - 1 + 1 = ix := by omega
    rcases Nat.lt_or_ge (iy + 1) h with hya | hya
    · rw [frac_natCast_hi hw hxe, frac_natCast_lo (by omega : iy + 2 ≤ h),
        cellIndex_natCast_hi hw hxe, cellIndex_natCast_lo (by omega : iy + 2 ≤ h)]
      rw [h4, h5]
      simp
    · have hye : iy + 1 = h := by omega
      rw [frac_natCast_hi hw hxe, frac_natCast_hi hh hye,
        cellIndex_natCast_hi hw hxe, cellIndex_natCast_hi hh hye]
      have h6 : ((iy : ℤ) - 1).toNat = iy - 1 := by omega
      have h7 : iy - 1 + 1 = iy := by omega
      rw [h4, h5, h6, h7]
      simp

/-- Claim C2: on a Field built from a grid with `width ≥ 2` and
`height ≥ 2`, sampling at any in-range integer coordinate returns
exactly the stored grid values: `getGradient` gives
`(U[iy][ix], V[iy][ix])` and `getDepth` gives `depth[iy][ix]`,
including on the last row/column where the clamped cell origin makes
the fractional offset 1. -/
theorem sampling_exact_at_integer_coords (sq : ℚ → ℚ) (g : GridData)
    (hw : 2 ≤ g.width) (hh : 2 ≤ g.height)
    (ix iy : ℕ) (hx : ix < g.width) (hy : iy < g.height) :
    (mkFlowField sq g).getGradient (ix : ℚ) (iy : ℚ) = (g.U iy ix, g.V iy ix) ∧
      (mkFlowField sq g).getDepth (ix : ℚ) (iy : ℚ) = g.depth iy ix := by
  refine ⟨?_, ?_⟩
  · show (bilinear g.U g.width g.height (ix : ℚ) (iy : ℚ),
      bilinear g.V g.width g.height (ix : ℚ) (iy : ℚ)) = _
    rw [bilinear_natCast g.U hw hh hx hy, bilinear_natCast g.V hw hh hx hy]
  · show bilinear g.depth g.width g.height (ix : ℚ) (iy : ℚ) = _
    exact bilinear_natCast g.depth hw hh hx hy

/-- Witness for C2: a concrete 2×2 grid sampled at the integer corner
`(1, 1)` (the clamped last row/column case). -/
theorem sampling_exact_at_integer_coords_witness :
    (mkFlowField Rat.sqrt
        ⟨2, 2, fun y x => (y : ℚ) + 2 * x, fun _ x => (x : ℚ), fun y _ => (y : ℚ)⟩).getGradient
        ((1 : ℕ) : ℚ) ((1 : ℕ) : ℚ) =
      ((GridData.mk 2 2 (fun y x => (y : ℚ) + 2 * x) (fun _ x => (x : ℚ)) (fun y _ => (y : ℚ))).U 1 1,
       (GridData.mk 2 2 (fun y x => (y : ℚ) + 2 * x) (fun _ x => (x : ℚ)) (fun y _ => (y : ℚ))).V 1 1) ∧
      (mkFlowField Rat.sqrt
        ⟨2, 2, fun y x => (y : ℚ) + 2 * x, fun _ x => (x : ℚ), fun y _ => (y : ℚ)⟩).getDepth
        ((1 : ℕ) : ℚ) ((1 : ℕ) : ℚ) =
      (GridData.mk 2 2 (fun y x => (y : ℚ) + 2 * x) (fun _ x => (x : ℚ)) (fun y _ => (y : ℚ))).depth 1 1 :=
  sampling_exact_at_integer_coords Rat.sqrt _ (by decide) (by decide) 1 1 (by decide) (by decide)

/-! ## Claim C4 -/

/-- `bilinear` depends on the query point only through the per-axis
clamped coordinates. -/
theorem bilinear_congr_clampCoord (grid : ℕ → ℕ → ℚ) {w h : ℕ} {x y x' y' : ℚ}
    (hx : clampCoord x w = clampCoord x' w) (hy : clampCoord y h = clampCoord y' h) :
    bilinear grid w h x y = bilinear grid w h x' y' := by
  unfold bilinear frac cellIndex
  rw [hx, hy]

theorem clampCoord_constrain {x : ℚ} {size : ℕ} (hsize : 1 ≤ size) :
    clampCoord (constrain x 0 ((size : ℚ) - 1)) size = clampCoord x size := by
  unfold clampCoord
  refine constrain_constrain ?_
  have : (1 : ℚ) ≤ (size : ℚ) := by exact_mod_cast hsize
  linarith

/-- Claim C4: on a Field with `width ≥ 2` and `height ≥ 2`, sampling at
a point outside `[0, width-1] × [0, height-1]` (by `getGradient`,
`getDepth` or `getSpeed`) returns the same value as sampling at the
nearest point of the boundary rectangle, obtained by clamping each
coordinate independently; every sampler is total, so out-of-range input
never errors. -/
theorem sampling_clamps_out_of_range (f : FlowField) (hw : 2 ≤ f.width) (hh : 2 ≤ f.height)
    (x y : ℚ)
    (hout : ¬(0 ≤ x ∧ x ≤ (f.width : ℚ) - 1 ∧ 0 ≤ y ∧ y ≤ (f.height : ℚ) - 1)) :
    f.getGradient x y =
      f.getGradient (constrain x 0 ((f.width : ℚ) - 1)) (constrain y 0 ((f.height : ℚ) - 1)) ∧
    f.getDepth x y =
      f.getDepth (constrain x 0 ((f.width : ℚ) - 1)) (constrain y 0 ((f.height : ℚ) - 1)) ∧
    f.getSpeed x y =
      f.getSpeed (constrain x 0 ((f.width : ℚ) - 1)) (constrain y 0 ((f.height : ℚ) - 1)) := by
  have hcx : clampCoord x f.width = clampCoord (constrain x 0 ((f.width : ℚ) - 1)) f.width :=
    (clampCoord_constrain (by omega)).symm
  have hcy : clampCoord y f.height = clampCoord (constrain y 0 ((f.height : ℚ) - 1)) f.height :=
    (clampCoord_constrain (by omega)).symm
  refine ⟨?_, ?_, ?_⟩
  · show (bilinear f.U f.width f.height x y, bilinear f.V f.width f.height x y) = _
    rw [bilinear_congr_clampCoord f.U hcx hcy, bilinear_congr_clampCoord f.V hcx hcy]
    rfl
  · exact bilinear_congr_clampCoord f.depth hcx hcy
  · exact bilinear_congr_clampCoord f.speed hcx hcy

/-- Witness for C4: the point `(-5, 25)` lies outside the 20×20 Field's
`[0, 19] × [0, 19]` rectangle. -/
theorem sampling_clamps_out_of_range_witness :
    fieldW.getGradient (-5) 25 =
      fieldW.getGradient (constrain (-5) 0 ((fieldW.width : ℚ) - 1))
        (constrain 25 0 ((fieldW.height : ℚ) - 1)) ∧
    fieldW.getDepth (-5) 25 =
      fieldW.getDepth (constrain (-5) 0 ((fieldW.width : ℚ) - 1))
        (constrain 25 0 ((fieldW.height : ℚ) - 1)) ∧
    fieldW.getSpeed (-5) 25 =
      fieldW.getSpeed (constrain (-5) 0 ((fieldW.width : ℚ) - 1))
        (constrain 25 0 ((fieldW.height : ℚ) - 1)) :=
  sampling_clamps_out_of_range fieldW (by decide) (by decide) (-5) 25
    (by with_unfolding_all decide)

/-! ## Claim C5 -/

/-- Claim C5: the seed layout of `generateStreamlines`:
`gridSize = floor(sqrt(density * 100))`; the generated list has exactly
one seed per cell, `gridSize × gridSize` in all; in loop order the seed
of cell `(i, j)` is the cell's nominal center `(i*xStep, j*yStep)`
(`xStep = width/gridSize`, `yStep = height/gridSize`; the jitter range
`[-step/2, +step/2]` makes cell `(i, j)` the step-sized box centered
there) plus the jitter, clamped into `[0, width-1] × [0, height-1]`;
and every generated seed lies in that rectangle. -/
theorem seed_layout_stratified (sq : ℚ → ℚ) (f : FlowField) (density : ℚ)
    (jitter : ℕ → ℕ → ℚ × ℚ) (hw : 1 ≤ f.width) (hh : 1 ≤ f.height)
    (hjit : ∀ i j, |(jitter i j).1| ≤ xStepOf f (gridSizeOf sq density) / 2 ∧
      |(jitter i j).2| ≤ yStepOf f (gridSizeOf sq density) / 2) :
    gridSizeOf sq density = ⌊sq (density * 100)⌋.toNat ∧
    (generateSeeds sq f density jitter).length = gridSizeOf sq density * gridSizeOf sq density ∧
    generateSeeds sq f density jitter =
      (List.range (gridSizeOf sq density)).flatMap (fun i =>
        (List.range (gridSizeOf sq density)).map (fun j =>
          (constrain (cellCenterX f (gridSizeOf sq density) i + (jitter i j).1) 0
            ((f.width : ℚ) - 1),
           constrain (cellCenterY f (gridSizeOf sq density) j + (jitter i j).2) 0
            ((f.height : ℚ) - 1)))) ∧
    ∀ p ∈ generateSeeds sq f density jitter,
      0 ≤ p.1 ∧ p.1 ≤ (f.width : ℚ) - 1 ∧ 0 ≤ p.2 ∧ p.2 ≤ (f.height : ℚ) - 1 := by
  have hw1 : (0 : ℚ) ≤ (f.width : ℚ) - 1 := by
    have : (1 : ℚ) ≤ (f.width : ℚ) := by exact_mod_cast hw
    linarith
  have hh1 : (0 : ℚ) ≤ (f.height : ℚ) - 1 := by
    have : (1 : ℚ) ≤ (f.height : ℚ) := by exact_mod_cast hh
    linarith
  refine ⟨rfl, ?_, rfl, ?_⟩
  · unfold generateSeeds
    rw [List.length_flatMap]
    simp only [Function.comp_def, List.length_map, List.length_range, List.map_const']
    rw [List.sum_replicate, smul_eq_mul]
  · intro p hp
    unfold generateSeeds at hp
    simp only [List.mem_flatMap, List.mem_map, List.mem_range] at hp
    obtain ⟨i, _, j, _, rfl⟩ := hp
    unfold seedAt
    exact ⟨(constrain_mem hw1).1, (constrain_mem hw1).2,
      (constrain_mem hh1).1, (constrain_mem hh1).2⟩

/-- Witness for C5: a 20×20 field, `density = 1/100` (so
`gridSize = 1`), with zero jitter, which lies inside the allowed
jitter range. -/
theorem seed_layout_stratified_witness :
    gridSizeOf (fun q => q) (1/100) = ⌊(fun q : ℚ => q) ((1:ℚ)/100 * 100)⌋.toNat ∧
    (generateSeeds (fun q => q) fieldW (1/100) (fun _ _ => (0, 0))).length =
      gridSizeOf (fun q => q) (1/100) * gridSizeOf (fun q => q) (1/100) ∧
    generateSeeds (fun q => q) fieldW (1/100) (fun _ _ => (0, 0)) =
      (List.range (gridSizeOf (fun q => q) (1/100))).flatMap (fun i =>
        (List.range (gridSizeOf (fun q => q) (1/100))).map (fun j =>
          (constrain (cellCenterX fieldW (gridSizeOf (fun q => q) (1/100)) i +
              ((fun _ _ => ((0 : ℚ), (0 : ℚ))) i j).1) 0 ((fieldW.width : ℚ) - 1),
           constrain (cellCenterY fieldW (gridSizeOf (fun q => q) (1/100)) j +
              ((fun _ _ => ((0 : ℚ), (0 : ℚ))) i j).2) 0 ((fieldW.height : ℚ) - 1)))) ∧
    ∀ p ∈ generateSeeds (fun q => q) fieldW (1/100) (fun _ _ => (0, 0)),
      0 ≤ p.1 ∧ p.1 ≤ (fieldW.width : ℚ) - 1 ∧ 0 ≤ p.2 ∧ p.2 ≤ (fieldW.height : ℚ) - 1 :=
  seed_layout_stratified (fun q => q) fieldW (1/100) (fun _ _ => (0, 0))
    (by decide) (by decide)
    (fun i j => by
      constructor <;>
        · show |(0 : ℚ)| ≤ _
          rw [abs_zero]
          simp only [xStepOf, yStepOf, gridSizeOf, fieldW, mkFlowField, gridW]
          norm_num)

/-! ## Claim C10 -/

/-- The region the integrator's bounds check accepts:
`[0, width-1) × [0, height-1)`. -/
def inBoundsPt (f : FlowField) (p : ℚ × ℚ) : Prop :=
  0 ≤ p.1 ∧ p.1 < (f.width : ℚ) - 1 ∧ 0 ≤ p.2 ∧ p.2 < (f.height : ℚ) - 1

/-- The accepted region enlarged by `stepSize` on each axis. -/
def nearBoundsPt (f : FlowField) (stepSize : ℚ) (p : ℚ × ℚ) : Prop :=
  -stepSize ≤ p.1 ∧ p.1 < (f.width : ℚ) - 1 + stepSize ∧
    -stepSize ≤ p.2 ∧ p.2 < (f.height : ℚ) - 1 + stepSize

/-- One normalized integration step moves each coordinate by at most
`stepSize`, because `|u| ≤ sqrt(u² + v²) < sqrt(u² + v²) + 1e-8`. -/
theorem step_within (sq : ℚ → ℚ) (Hsq : ∀ a b : ℚ, |a| ≤ sq (a * a + b * b))
    {stepSize : ℚ} (hss : 0 ≤ stepSize) (u v : ℚ) :
    |u / (sq (u * u + v * v) + 1 / 100000000) * stepSize| ≤ stepSize ∧
      |v / (sq (u * u + v * v) + 1 / 100000000) * stepSize| ≤ stepSize := by
  have hu : |u| ≤ sq (u * u + v * v) := Hsq u v
  have hv : |v| ≤ sq (u * u + v * v) := by
    have h := Hsq v u
    rwa [show v * v + u * u = u * u + v * v from by ring] at h
  have h0 : (0 : ℚ) ≤ sq (u * u + v * v) := le_trans (abs_nonneg u) hu
  have hpos : (0 : ℚ) < sq (u * u + v * v) + 1 / 100000000 := by linarith
  have hu1 : |u / (sq (u * u + v * v) + 1 / 100000000)| ≤ 1 := by
    rw [abs_div, abs_of_pos hpos, div_le_one hpos]
    linarith
  have hv1 : |v / (sq (u * u + v * v) + 1 / 100000000)| ≤ 1 := by
    rw [abs_div, abs_of_pos hpos, div_le_one hpos]
    linarith
  constructor
  · rw [abs_mul, abs_of_nonneg hss]
    exact mul_le_of_le_one_left hss hu1
  · rw [abs_mul, abs_of_nonneg hss]
    exact mul_le_of_le_one_left hss hv1

/-- Every point of the loop's output list, including the last, is within
`stepSize` of the accepted region: each appended point is one bounded
step away from a position that passed the bounds check. -/
theorem integrateLoop_mem_nearBounds (sq : ℚ → ℚ) (f : FlowField) {stepSize : ℚ}
    (minSpeed : ℚ) (Hsq : ∀ a b : ℚ, |a| ≤ sq (a * a + b * b)) (hss : 0 ≤ stepSize) :
    ∀ (n : ℕ) (x y : ℚ) (vis : List (ℤ × ℤ)),
      ∀ p ∈ integrateLoop sq f stepSize minSpeed n x y vis, nearBoundsPt f stepSize p := by
  intro n
  induction n with
  | zero => intro x y vis p hp; simp [integrateLoop] at hp
  | succ n ih =>
    intro x y vis p hp
    simp only [integrateLoop] at hp
    split at hp
    · simp at hp
    · rename_i hbound
      split at hp
      · simp at hp
      · split at hp
        · simp at hp
        · push_neg at hbound
          obtain ⟨hx0, hxw, hy0, hyh⟩ := hbound
          rcases List.mem_cons.mp hp with rfl | hmem
          · have habs := step_within sq Hsq hss (f.getGradient x y).1 (f.getGradient x y).2
            have hb1 := abs_le.mp habs.1
            have hb2 := abs_le.mp habs.2
            refine ⟨?_, ?_, ?_, ?_⟩ <;> dsimp only <;> linarith
          · exact ih _ _ _ p hmem

/-- Every element of the traced polyline except the last passed the
bounds check of its own iteration, hence lies in the accepted region. -/
theorem integrateLoop_dropLast_inBounds (sq : ℚ → ℚ) (f : FlowField)
    (stepSize minSpeed : ℚ) :
    ∀ (n : ℕ) (x y : ℚ) (vis : List (ℤ × ℤ)),
      ∀ p ∈ ((x, y) :: integrateLoop sq f stepSize minSpeed n x y vis).dropLast,
        inBoundsPt f p := by
  intro n
  induction n with
  | zero => intro x y vis p hp; simp [integrateLoop] at hp
  | succ n ih =>
    intro x y vis p hp
    simp only [integrateLoop] at hp
    split at hp
    · simp at hp
    · rename_i hbound
      push_neg at hbound
      obtain ⟨hx0, hxw, hy0, hyh⟩ := hbound
      split at hp
      · simp at hp
      · split at hp
        · simp at hp
        · rw [List.dropLast_cons₂] at hp
          rcases List.mem_cons.mp hp with rfl | hmem
          · exact ⟨hx0, hxw, hy0, hyh⟩
          · exact ih _ _ _ p hmem

/-- A non-empty loop output implies its starting position passed the
bounds check. -/
theorem integrateLoop_ne_nil_inBounds (sq : ℚ → ℚ) (f : FlowField)
    (stepSize minSpeed : ℚ) (n : ℕ) (x y : ℚ) (vis : List (ℤ × ℤ))
    (h : integrateLoop sq f stepSize minSpeed n x y vis ≠ []) : inBoundsPt f (x, y) := by
  cases n with
  | zero => simp [integrateLoop] at h
  | succ n =>
    by_cases hbound : x < 0 ∨ (f.width : ℚ) - 1 ≤ x ∨ y < 0 ∨ (f.height : ℚ) - 1 ≤ y
    · refine absurd ?_ h
      simp only [integrateLoop]
      rw [if_pos hbound]
    · push_neg at hbound
      exact ⟨hbound.1, hbound.2.1, hbound.2.2.1, hbound.2.2.2⟩

/-- Claim C10: every non-empty polyline returned by
`integrateStreamline` has all points except possibly the last inside
`[0, width-1) × [0, height-1)`, and even the final appended point
exceeds those bounds by at most `stepSize` on each axis (the advanced
position is appended without being re-checked). -/
theorem streamline_points_bounds (sq : ℚ → ℚ) (f : FlowField) (x0 y0 stepSize : ℚ)
    (maxLength : ℕ) (minSpeed : ℚ)
    (Hsq : ∀ a b : ℚ, |a| ≤ sq (a * a + b * b)) (hss : 0 ≤ stepSize)
    (hne : integrateStreamline sq x0 y0 f stepSize maxLength minSpeed ≠ []) :
    (∀ p ∈ (integrateStreamline sq x0 y0 f stepSize maxLength minSpeed).dropLast,
        inBoundsPt f p) ∧
      (∀ p ∈ integrateStreamline sq x0 y0 f stepSize maxLength minSpeed,
        nearBoundsPt f stepSize p) := by
  by_cases h : 10 < ((x0, y0) :: integrateLoop sq f stepSize minSpeed maxLength x0 y0 []).length
  case neg =>
    exfalso
    apply hne
    unfold integrateStreamline
    rw [if_neg h]
  case pos =>
    have hres : integrateStreamline sq x0 y0 f stepSize maxLength minSpeed =
        (x0, y0) :: integrateLoop sq f stepSize minSpeed maxLength x0 y0 [] := by
      unfold integrateStreamline
      rw [if_pos h]
    rw [hres]
    have hLne : integrateLoop sq f stepSize minSpeed maxLength x0 y0 [] ≠ [] := by
      intro he
      rw [he] at h
      simp at h
    have hseed := integrateLoop_ne_nil_inBounds sq f stepSize minSpeed maxLength x0 y0 [] hLne
    constructor
    · exact integrateLoop_dropLast_inBounds sq f stepSize minSpeed maxLength x0 y0 []
    · intro p hp
      rcases List.mem_cons.mp hp with rfl | hmem
      · obtain ⟨a, b, c, d⟩ := hseed
        exact ⟨by linarith, by linarith, by linarith, by linarith⟩
      · exact integrateLoop_mem_nearBounds sq f minSpeed Hsq hss maxLength x0 y0 [] p hmem

theorem sqAff_dominates : ∀ a b : ℚ, |a| ≤ sqAff (a * a + b * b) := by
  intro a b
  unfold sqAff
  rcases abs_cases a with ⟨he, _⟩ | ⟨he, _⟩ <;>
    nlinarith [sq_nonneg (a - 1), sq_nonneg (a + 1), sq_nonneg b]

/-- Witness for C10: on the 20×20 constant field with `stepSize = 4`,
the trace from `(0.5, 0.5)` yields an 11-point polyline (non-empty
result). -/
theorem streamline_points_bounds_witness :
    (∀ p ∈ (integrateStreamline sqAff (1/2) (1/2) fieldW 4 40 (1/1000)).dropLast,
        inBoundsPt fieldW p) ∧
      (∀ p ∈ integrateStreamline sqAff (1/2) (1/2) fieldW 4 40 (1/1000),
        nearBoundsPt fieldW 4 p) :=
  streamline_points_bounds sqAff fieldW (1/2) (1/2) 4 40 (1/1000) sqAff_dominates
    (by norm_num) (by with_unfolding_all decide)

/-! ## Claim C6 -/

/-- Claim C6 (counterexample): in the 4×4 example scenario
(`U = 1`, `V = 0`, seed `(0.5, 0.5)`, `stepSize = 1`,
`maxLength = 10`, `minSpeed = 0.001`), the traced polyline does NOT
stay below `x = width - 1 = 3`: its final appended point has
`x ≈ 3.5 ≥ 3`, so "x ranging from 0.5 to about 2.5, stopping strictly
before width-1 = 3" is false of the traced path. -/
theorem example_trace_exceeds_range : ¬(∀ p ∈ tracePoints6, p.1 < 3) := by
  with_unfolding_all decide

/-- Claim C6 (amended): the trace is straight and horizontal
(`y = 0.5` throughout) and advances just under 1 unit per step; the
positions that pass the bounds check range over `x ∈ [0.5, 3)`
(concretely `≈ 0.5, 1.5, 2.5`), then one more point at `x ≈ 3.5`
(between 3 and 3.5) is appended before the loop exits, for 4 points in
all — fewer than 10 — so the final streamline is empty. -/
theorem example_trace_behavior :
    tracePoints6.length = 4 ∧
      (∀ p ∈ tracePoints6, p.2 = 1/2) ∧
      (∀ p ∈ tracePoints6.dropLast, 1/2 ≤ p.1 ∧ p.1 < 3) ∧
      (∃ p ∈ tracePoints6, 3 ≤ p.1 ∧ p.1 ≤ 7/2) ∧
      integrateStreamline Rat.sqrt (1/2) (1/2) field4 1 10 (1/1000) = [] := by
  with_unfolding_all decide

end SgDraw
